import Mathlib

/-!
Shallow embedding of `src/sheet.py` (the Bookido product-booking workflow).

The spreadsheet backend is modelled as the list of data rows of the
`products` worksheet (row 1 of the physical sheet is the header, so the
data row with 0-based index `i` sits at physical row `i + 2`); each row is
a list of text cells.  `get_all_records` is modelled positionally under the
fixed header `id, calendar_id, title, description, address, capacity,
price, date, time, emails`, with missing cells read as the empty string.
The calendar backend is modelled as a list of events supporting the two
operations the code consumes: add-event and update-event-description.

Python primitives are modelled as follows:
  - `s.split(c)` for a one-character separator: `pySplit` (on `""` it
    yields `[""]`, exactly as in Python);
  - `c.join(ss)`: `pyJoin`;
  - `int(s)`: `pyInt`, an optional sign followed by decimal digits
    (whitespace trimming and underscore separators are not modelled);
  - `datetime.strptime(s, "%H:%M:%S")`: `strptimeHMS`, three `:`-separated
    fields of one or two digits with hour at most 23, minute and second at
    most 59; a failure is a ValueError;
  - adding `timedelta(minutes=45)` and printing with
    `strftime("%H:%M:%S")`: 45 is added to the minutes-of-day modulo one
    day, the seconds pass through, and the date component is discarded by
    the format string.

Functions that in Python mutate the backends are state transformers
`St → ... → St × Option Err`: the returned state reflects every write that
happened before the (optional) uncaught exception, matching where in the
source each raise sits relative to the writes.
-/

namespace Bookido

/-- Prepend a character to the first piece of a split result. -/
def consHead (x : Char) : List (List Char) → List (List Char)
  | [] => [[x]]
  | y :: ys => (x :: y) :: ys

/-- Split a character list at every occurrence of `c` (Python
`str.split` with a one-character separator, on the character level). -/
def splitOnChar (c : Char) : List Char → List (List Char)
  | [] => [[]]
  | x :: xs =>
    if x = c then [] :: splitOnChar c xs else consHead x (splitOnChar c xs)

/-- Join character lists with the separator `c` (Python `str.join`, on the
character level). -/
def joinChar (c : Char) : List (List Char) → List Char
  | [] => []
  | [l] => l
  | l :: ls => l ++ c :: joinChar c ls

/-- Python `s.split(c)` for a one-character separator `c`. -/
def pySplit (s : String) (c : Char) : List String :=
  (splitOnChar c s.data).map String.mk

/-- Python `c.join(ss)` for a one-character separator `c`. -/
def pyJoin (c : Char) (ss : List String) : String :=
  String.mk (joinChar c (ss.map String.data))

/-- The email-list parse performed by `add_booking`:
`product.emails.split(",") if product.emails != "" else []`. -/
def parseEmails (s : String) : List String :=
  if s = "" then [] else pySplit s ','

/-- Numeric value of a list of decimal digit characters. -/
def digitsToNat (ds : List Char) : Nat :=
  ds.foldl (fun n c => 10 * n + (c.toNat - 48)) 0

/-- Parse a nonempty all-digit character list, as used by `pyInt` and the
time-field parser. -/
def decDigits? (ds : List Char) : Option Nat :=
  if ds ≠ [] ∧ ds.all (fun c => c.isDigit) then some (digitsToNat ds) else none

/-- Python `int(s)`: optional sign followed by decimal digits. -/
def pyInt (s : String) : Option Int :=
  match s.data with
  | '-' :: ds => (decDigits? ds).map (fun n => -(n : Int))
  | '+' :: ds => (decDigits? ds).map (fun n => (n : Int))
  | ds => (decDigits? ds).map (fun n => (n : Int))

/-- Zero-padded two-digit decimal rendering, as `strftime` produces. -/
def fmt2 (n : Nat) : String :=
  if n < 10 then "0" ++ toString n else toString n

/-- Python `strftime("%H:%M:%S")` applied to a time of day. -/
def strftimeHMS (h m s : Nat) : String :=
  fmt2 h ++ ":" ++ fmt2 m ++ ":" ++ fmt2 s

/-- One field of `%H`, `%M` or `%S`: one or two decimal digits. -/
def timeField? (s : String) : Option Nat :=
  if s.length ≤ 2 then decDigits? s.data else none

/-- Python `datetime.strptime(s, "%H:%M:%S")`, reduced to the
hour-minute-second triple it yields. -/
def strptimeHMS (s : String) : Option (Nat × Nat × Nat) :=
  match pySplit s ':' with
  | [hs, ms, ss] =>
    match timeField? hs, timeField? ms, timeField? ss with
    | some h, some m, some sec =>
      if h ≤ 23 ∧ m ≤ 59 ∧ sec ≤ 59 then some (h, m, sec) else none
    | _, _, _ => none
  | _ => none

/-- Product model holding information about a product in the application
(all ten fields are stored as text, in the declared column order). -/
structure Product where
  id : String
  calendar_id : String
  title : String
  description : String
  address : String
  capacity : String
  price : String
  date : String
  time : String
  emails : String
deriving Repr, DecidableEq

/-- Product row model storing row_num to access the product row in the
sheet. -/
structure ProductRow where
  row_num : Nat
  product : Product
deriving Repr, DecidableEq

/-- A Google calendar event as built by `add_product`: both the start and
the end carry the same `timeZone` string. -/
structure GEvent where
  id : String
  summary : String
  location : String
  description : String
  startDateTime : String
  endDateTime : String
  timeZone : String
deriving Repr, DecidableEq

/-- The uncaught exceptions the embedded functions can raise. -/
inductive Err where
  | productNotFound
  | capacityReached
  | valueError
  | nameError
deriving Repr, DecidableEq

/-- Combined backend state: the data rows of the `products` worksheet and
the calendar events. -/
structure St where
  sheet : List (List String)
  calendar : List GEvent
deriving Repr, DecidableEq

instance : DecidableEq (Except Err ProductRow) := fun a b =>
  match a, b with
  | .ok x, .ok y => if h : x = y then isTrue (by rw [h]) else
      isFalse (by intro hc; cases hc; exact h rfl)
  | .error x, .error y => if h : x = y then isTrue (by rw [h]) else
      isFalse (by intro hc; cases hc; exact h rfl)
  | .ok _, .error _ => isFalse (by intro hc; cases hc)
  | .error _, .ok _ => isFalse (by intro hc; cases hc)

/-- Read one cell of a row; a missing cell reads as the empty string,
as `get_all_records` pads short rows. -/
def getCell (row : List String) (i : Nat) : String := row.getD i ""

/-- Write one cell of a row, padding the row with empty cells when it is
shorter than the target position. -/
def setCell (row : List String) (i : Nat) (v : String) : List String :=
  (row ++ List.replicate (i + 1 - row.length) "").set i v

/-- The `list(product.dict().values())` row appended by `add_product`:
all ten fields in the fixed column order. -/
def productRecord (p : Product) : List String :=
  [p.id, p.calendar_id, p.title, p.description, p.address, p.capacity,
   p.price, p.date, p.time, p.emails]

/-- Parse one record of `get_all_records` back into a `Product`
(positional under the fixed header). -/
def productOfRecord (r : List String) : Product :=
  ⟨getCell r 0, getCell r 1, getCell r 2, getCell r 3, getCell r 4,
   getCell r 5, getCell r 6, getCell r 7, getCell r 8, getCell r 9⟩

/-- gspread `update_cell(row, col, value)`: `row` and `col` are 1-indexed
on the physical sheet, whose row 1 is the header, so data index
`row - 2` and cell index `col - 1`. -/
def sheetUpdateCell (sheet : List (List String)) (rowNum col : Nat)
    (v : String) : List (List String) :=
  sheet.set (rowNum - 2) (setCell (sheet.getD (rowNum - 2) []) (col - 1) v)

/-- Helper for `list_products`: rows starting at physical row `rn`. -/
def list_products_aux (rn : Nat) : List (List String) → List ProductRow
  | [] => []
  | r :: rs => ⟨rn, productOfRecord r⟩ :: list_products_aux (rn + 1) rs

/-- `list_products()`: every data row as a `ProductRow`, the row with
0-based data index `i` getting `row_num = i + 2`. -/
def list_products (st : St) : List ProductRow :=
  list_products_aux 2 st.sheet

/-- `get_product_row(product_id)`: first row of `list_products()` whose
product has the given id; raises ProductNotFound on a miss. -/
def get_product_row (st : St) (product_id : String) : Except Err ProductRow :=
  match (list_products st).find? (fun row => row.product.id == product_id) with
  | some row => .ok row
  | none => .error .productNotFound

/-- `build_description`: the f-string
`product_description + " (" + num_booked + "/" + product_capacity + ")"`. -/
def build_description (product_description product_capacity : String)
    (num_booked : Nat) : String :=
  product_description ++ " (" ++ toString num_booked ++ "/" ++
    product_capacity ++ ")"

/-- Calendar backend operation `update_event_description(calendar_id, d)`:
replaces the description of the event(s) with the given id. -/
def update_event_description (cal : List GEvent)
    (calendar_id description : String) : List GEvent :=
  cal.map (fun e => if e.id = calendar_id then
    { e with description := description } else e)

/-- Calendar backend operation `add_event(event)`. -/
def add_event (cal : List GEvent) (e : GEvent) : List GEvent := cal ++ [e]

/-- `add_booking(product_id, email)`: loads the product row, parses the
stored email list, raises CapacityReached when
`len(emails) > int(capacity) - 1`, otherwise appends the email, writes the
joined list to column 10 and pushes the recomputed description to the
calendar event. -/
def add_booking (st : St) (product_id email : String) : St × Option Err :=
  match get_product_row st product_id with
  | .error e => (st, some e)
  | .ok product_row =>
    let product := product_row.product
    let emails := parseEmails product.emails
    match pyInt product.capacity with
    | none => (st, some .valueError)
    | some cap =>
      if (emails.length : Int) > cap - 1 then (st, some .capacityReached)
      else
        let emails2 := emails ++ [email]
        let emails_to_store :=
          if emails2.length = 1 then email else pyJoin ',' emails2
        let sheet2 := sheetUpdateCell st.sheet product_row.row_num 10
          emails_to_store
        let description :=
          build_description product.description product.capacity
            emails2.length ++ "\n" ++
            pyJoin '\n' (pySplit emails_to_store ',')
        ({ sheet := sheet2,
           calendar := update_event_description st.calendar
             product.calendar_id description }, none)

/-- The fixed time zone offset `GMT_OFF = "+01:00"`. -/
def GMT_OFF : String := "+01:00"

/-- `convert_to_gcalendar_friendly_date(date, time)`:
the f-string `date + "T" + time + GMT_OFF`. -/
def convert_to_gcalendar_friendly_date (date time : String) : String :=
  date ++ "T" ++ time ++ GMT_OFF

/-- `add_product(product)`: appends the row of all product fields, then
builds the mirrored calendar event.  The row append happens before the
`strptime` call inside the event dict, so a malformed time raises
ValueError with the row already appended and no event created.  The end
time is `strptime(time) + 45 minutes` printed with `%H:%M:%S`, which keeps
the date component of the start. -/
def add_product (st : St) (product : Product) : St × Option Err :=
  let sheet2 := st.sheet ++ [productRecord product]
  match strptimeHMS product.time with
  | none => ({ st with sheet := sheet2 }, some .valueError)
  | some (h, m, s) =>
    let total := h * 60 + m + 45
    let endTime := strftimeHMS (total % 1440 / 60) (total % 1440 % 60) s
    let event : GEvent :=
      ⟨product.calendar_id, product.title, product.address,
       build_description product.description product.capacity 0,
       convert_to_gcalendar_friendly_date product.date product.time,
       convert_to_gcalendar_friendly_date product.date endTime,
       "America/Los_Angeles"⟩
    ({ sheet := sheet2, calendar := add_event st.calendar event }, none)

/-- `generate_new_product_id()`:
`str(len(products_sheet.get_all_records()))`. -/
def generate_new_product_id (st : St) : String :=
  toString st.sheet.length

/-- `add_product_raw(title, description, address, price, capacity, date,
time)`: builds a new `Product` (with a fresh random calendar id, passed
here as the oracle argument `calendar_id`, and `generate_new_product_id()`
as id), but the final call is `add_product(sample_product)` where
`sample_product` is an undefined name, so evaluating the argument raises
NameError before `add_product` is entered: nothing is appended and no
event is created. -/
def add_product_raw (st : St) (calendar_id title description address price
    capacity date time : String) : St × Option Err :=
  let product_id := generate_new_product_id st
  let _new_product : Product :=
    ⟨product_id, calendar_id, title, description, address, capacity, price,
     date, time, ""⟩
  (st, some .nameError)

/-! Helper lemmas about splitting and joining. -/

lemma mk_data_eq (s : String) : String.mk s.data = s := rfl

lemma mk_ne_empty (l : List Char) (h : l ≠ []) : String.mk l ≠ "" :=
  fun hc => h (congrArg String.data hc)

lemma splitOnChar_of_not_mem (c : Char) (l : List Char) (h : c ∉ l) :
    splitOnChar c l = [l] := by
  induction l with
  | nil => rfl
  | cons x xs ih =>
    simp only [List.mem_cons, not_or] at h
    simp [splitOnChar, Ne.symm h.1, ih h.2, consHead]

lemma splitOnChar_append_cons (c : Char) (l t : List Char) (h : c ∉ l) :
    splitOnChar c (l ++ c :: t) = l :: splitOnChar c t := by
  induction l with
  | nil => simp [splitOnChar]
  | cons x xs ih =>
    simp only [List.mem_cons, not_or] at h
    simp [splitOnChar, Ne.symm h.1, ih h.2, consHead]

lemma not_mem_of_mem_splitOnChar (c : Char) (l : List Char) :
    ∀ p ∈ splitOnChar c l, c ∉ p := by
  induction l with
  | nil =>
    intro p hp
    simp [splitOnChar] at hp
    simp [hp]
  | cons x xs ih =>
    intro p hp
    by_cases hx : x = c
    · simp [splitOnChar, hx] at hp
      rcases hp with hp | hp
      · simp [hp]
      · exact ih p hp
    · simp only [splitOnChar, if_neg hx] at hp
      cases hs : splitOnChar c xs with
      | nil =>
        rw [hs] at hp
        simp [consHead] at hp
        simp [hp, List.mem_singleton]
        exact fun hc => hx hc.symm
      | cons y ys =>
        rw [hs] at hp
        simp [consHead] at hp
        rcases hp with hp | hp
        · subst hp
          have hy : c ∉ y := ih y (by rw [hs]; exact List.mem_cons_self y ys)
          simp [List.mem_cons]
          exact ⟨fun hc => hx hc.symm, hy⟩
        · exact ih p (by rw [hs]; exact List.mem_cons_of_mem y hp)

lemma splitOnChar_joinChar (c : Char) (ls : List (List Char)) (hne : ls ≠ [])
    (hall : ∀ l ∈ ls, c ∉ l) : splitOnChar c (joinChar c ls) = ls := by
  induction ls with
  | nil => exact absurd rfl hne
  | cons l ls ih =>
    cases ls with
    | nil =>
      simp only [joinChar]
      exact splitOnChar_of_not_mem c l (hall l (List.mem_cons_self l []))
    | cons l2 ls2 =>
      have hjoin : joinChar c (l :: l2 :: ls2) = l ++ c :: joinChar c (l2 :: ls2) := rfl
      rw [hjoin, splitOnChar_append_cons c l _ (hall l (List.mem_cons_self _ _))]
      rw [ih (List.cons_ne_nil _ _) (fun x hx => hall x (List.mem_cons_of_mem l hx))]

lemma pySplit_pyJoin (c : Char) (ss : List String) (hne : ss ≠ [])
    (hall : ∀ x ∈ ss, c ∉ x.data) : pySplit (pyJoin c ss) c = ss := by
  unfold pySplit pyJoin
  rw [mk_data_eq ⟨joinChar c (ss.map String.data)⟩]
  rw [splitOnChar_joinChar c (ss.map String.data)
    (by simpa using hne)
    (by intro l hl
        rcases List.mem_map.mp hl with ⟨x, hx, rfl⟩
        exact hall x hx)]
  rw [List.map_map]
  have : (String.mk ∘ String.data) = id := funext fun s => mk_data_eq s
  rw [this, List.map_id]

lemma pyJoin_append_singleton_ne_empty (es : List String) (e : String)
    (he : e ≠ "") : pyJoin ',' (es ++ [e]) ≠ "" := by
  cases es with
  | nil =>
    simp only [List.nil_append, pyJoin, List.map, joinChar]
    rw [mk_data_eq e]
    exact he
  | cons x xs =>
    unfold pyJoin
    apply mk_ne_empty
    have hmap : (x :: xs ++ [e]).map String.data =
        x.data :: (xs ++ [e]).map String.data := rfl
    rw [hmap]
    cases hm : (xs ++ [e]).map String.data with
    | nil => simp at hm
    | cons y ys => simp [joinChar]

lemma parseEmails_pyJoin (ss : List String) (hne : ss ≠ [])
    (hall : ∀ x ∈ ss, ',' ∉ x.data) (hjoin : pyJoin ',' ss ≠ "") :
    parseEmails (pyJoin ',' ss) = ss := by
  unfold parseEmails
  rw [if_neg hjoin]
  exact pySplit_pyJoin ',' ss hne hall

lemma parseEmails_not_comma (s : String) : ∀ x ∈ parseEmails s, ',' ∉ x.data := by
  intro x hx
  unfold parseEmails at hx
  split at hx
  · simp at hx
  · unfold pySplit at hx
    rcases List.mem_map.mp hx with ⟨p, hp, rfl⟩
    rw [mk_data_eq ⟨p⟩]
    exact not_mem_of_mem_splitOnChar ',' s.data p hp

lemma store_if_eq (es : List String) (e : String) :
    (if (es ++ [e]).length = 1 then e else pyJoin ',' (es ++ [e])) =
      pyJoin ',' (es ++ [e]) := by
  cases es with
  | nil =>
    simp only [List.nil_append, List.length_singleton, if_pos rfl]
    simp [pyJoin, joinChar, mk_data_eq]
  | cons x xs =>
    rw [if_neg (by simp)]

/-! Helper lemmas about cells and rows. -/

lemma getD_set_self {α : Type} (l : List α) (i : Nat) (v d : α)
    (h : i < l.length) : (l.set i v).getD i d = v := by
  induction l generalizing i with
  | nil => simp at h
  | cons x xs ih =>
    cases i with
    | zero => rfl
    | succ n =>
      have hn : n < xs.length := by simpa using h
      simpa [List.getD_cons_succ] using ih n hn

lemma getD_set_ne {α : Type} (l : List α) (i j : Nat) (v d : α)
    (h : i ≠ j) : (l.set i v).getD j d = l.getD j d := by
  induction l generalizing i j with
  | nil => rfl
  | cons x xs ih =>
    cases i with
    | zero =>
      cases j with
      | zero => exact absurd rfl h
      | succ n => rfl
    | succ m =>
      cases j with
      | zero => rfl
      | succ n =>
        simpa [List.getD_cons_succ] using ih m n (fun hc => h (by rw [hc]))

lemma getD_replicate_self {α : Type} (n i : Nat) (d : α) :
    (List.replicate n d).getD i d = d := by
  induction n generalizing i with
  | zero => rfl
  | succ m ih =>
    cases i with
    | zero => rfl
    | succ k => simp [List.getD_cons_succ, ih k]

lemma getD_append_replicate {α : Type} (row : List α) (n i : Nat) (d : α) :
    (row ++ List.replicate n d).getD i d = row.getD i d := by
  induction row generalizing i with
  | nil => simp [getD_replicate_self n i d]
  | cons x xs ih =>
    cases i with
    | zero => rfl
    | succ k => simpa [List.getD_cons_succ] using ih k

lemma getCell_setCell_self (row : List String) (i : Nat) (v : String) :
    getCell (setCell row i v) i = v := by
  unfold getCell setCell
  apply getD_set_self
  rw [List.length_append, List.length_replicate]
  omega

lemma getCell_setCell_ne (row : List String) (i j : Nat) (v : String)
    (h : i ≠ j) : getCell (setCell row i v) j = getCell row j := by
  unfold getCell setCell
  rw [getD_set_ne _ i j v "" h, getD_append_replicate]

lemma getCell_setCell (row : List String) (i j : Nat) (v : String) :
    getCell (setCell row i v) j = if i = j then v else getCell row j := by
  by_cases h : i = j
  · rw [if_pos h, h, getCell_setCell_self]
  · rw [if_neg h, getCell_setCell_ne row i j v h]

lemma productOfRecord_setCell (r : List String) (v : String) :
    productOfRecord (setCell r 9 v) = { productOfRecord r with emails := v } := by
  simp [productOfRecord, getCell_setCell]

lemma productOfRecord_productRecord (p : Product) :
    productOfRecord (productRecord p) = p := rfl

/-! Helper lemmas about `list_products` and the row lookup. -/

lemma list_products_aux_length (rn : Nat) (l : List (List String)) :
    (list_products_aux rn l).length = l.length := by
  induction l generalizing rn with
  | nil => rfl
  | cons r rs ih => simp [list_products_aux, ih]

lemma list_products_aux_append (rn : Nat) (l1 l2 : List (List String)) :
    list_products_aux rn (l1 ++ l2) =
      list_products_aux rn l1 ++ list_products_aux (rn + l1.length) l2 := by
  induction l1 generalizing rn with
  | nil => simp [list_products_aux]
  | cons r rs ih =>
    have harith : rn + 1 + rs.length = rn + (rs.length + 1) := by omega
    simp only [List.cons_append, list_products_aux, List.append_eq,
      ih (rn + 1), List.length_cons, harith]

lemma find?_row_cons_pos (q : ProductRow) (l : List ProductRow) (pid : String)
    (h : q.product.id = pid) :
    List.find? (fun r => r.product.id == pid) (q :: l) = some q :=
  List.find?_cons_of_pos _ (by simp [h])

lemma find?_row_cons_neg (q : ProductRow) (l : List ProductRow) (pid : String)
    (h : ¬ q.product.id = pid) :
    List.find? (fun r => r.product.id == pid) (q :: l) =
      List.find? (fun r => r.product.id == pid) l :=
  List.find?_cons_of_neg _ (by simp [h])

lemma aux_find_spec (rs : List (List String)) (n : Nat) (pid : String)
    (pr : ProductRow)
    (h : (list_products_aux n rs).find? (fun q => q.product.id == pid) = some pr) :
    n ≤ pr.row_num ∧ pr.row_num - n < rs.length ∧
      pr.product = productOfRecord (rs.getD (pr.row_num - n) []) ∧
      pr.product.id = pid := by
  induction rs generalizing n with
  | nil => simp [list_products_aux] at h
  | cons r rs ih =>
    rw [list_products_aux] at h
    by_cases hp : (productOfRecord r).id = pid
    · rw [find?_row_cons_pos _ _ _ hp] at h
      obtain rfl : pr = ⟨n, productOfRecord r⟩ := by
        cases h
        rfl
      refine ⟨Nat.le_refl n, ?_, ?_, ?_⟩
      · simp
      · simp
      · exact hp
    · rw [find?_row_cons_neg _ _ _ hp] at h
      obtain ⟨h1, h2, h3, h4⟩ := ih (n + 1) h
      have hsucc : pr.row_num - n = (pr.row_num - (n + 1)) + 1 := by omega
      refine ⟨by omega, by simp [hsucc]; omega, ?_, h4⟩
      rw [hsucc]
      simpa [List.getD_cons_succ] using h3

lemma aux_find_set (rs : List (List String)) (n : Nat) (pid : String)
    (pr : ProductRow) (r2 : List String)
    (h : (list_products_aux n rs).find? (fun q => q.product.id == pid) = some pr)
    (hid : (productOfRecord r2).id = pr.product.id) :
    (list_products_aux n (rs.set (pr.row_num - n) r2)).find?
        (fun q => q.product.id == pid) =
      some ⟨pr.row_num, productOfRecord r2⟩ := by
  induction rs generalizing n with
  | nil => simp [list_products_aux] at h
  | cons r rs ih =>
    rw [list_products_aux] at h
    by_cases hp : (productOfRecord r).id = pid
    · rw [find?_row_cons_pos _ _ _ hp] at h
      obtain rfl : pr = ⟨n, productOfRecord r⟩ := by
        cases h
        rfl
      simp only [Nat.sub_self, List.set_cons_zero, list_products_aux]
      exact find?_row_cons_pos _ _ _ (by rw [hid]; exact hp)
    · rw [find?_row_cons_neg _ _ _ hp] at h
      obtain ⟨h1, _, _, _⟩ := aux_find_spec rs (n + 1) pid pr h
      have hsucc : pr.row_num - n = (pr.row_num - (n + 1)) + 1 := by omega
      rw [hsucc, List.set_cons_succ, list_products_aux]
      rw [find?_row_cons_neg _ _ _ hp]
      exact ih (n + 1) h

lemma get_product_row_ok_spec (st : St) (pid : String) (pr : ProductRow)
    (h : get_product_row st pid = .ok pr) :
    2 ≤ pr.row_num ∧ pr.row_num - 2 < st.sheet.length ∧
      pr.product = productOfRecord (st.sheet.getD (pr.row_num - 2) []) ∧
      pr.product.id = pid := by
  unfold get_product_row list_products at h
  cases hf : (list_products_aux 2 st.sheet).find? (fun q => q.product.id == pid) with
  | none => rw [hf] at h; cases h
  | some q =>
    rw [hf] at h
    obtain rfl : q = pr := by cases h; rfl
    exact aux_find_spec st.sheet 2 pid q hf

lemma get_product_row_ok_find (st : St) (pid : String) (pr : ProductRow)
    (h : get_product_row st pid = .ok pr) :
    (list_products_aux 2 st.sheet).find? (fun q => q.product.id == pid) =
      some pr := by
  unfold get_product_row list_products at h
  cases hf : (list_products_aux 2 st.sheet).find? (fun q => q.product.id == pid) with
  | none => rw [hf] at h; cases h
  | some q => rw [hf] at h; cases h; rfl

lemma get_product_row_update (st : St) (cal2 : List GEvent) (pid v : String)
    (pr : ProductRow) (h : get_product_row st pid = .ok pr) :
    get_product_row ⟨sheetUpdateCell st.sheet pr.row_num 10 v, cal2⟩ pid =
      .ok ⟨pr.row_num, { pr.product with emails := v }⟩ := by
  obtain ⟨h2, hlt, hprod, hpid⟩ := get_product_row_ok_spec st pid pr h
  have hf := get_product_row_ok_find st pid pr h
  have hset := aux_find_set st.sheet 2 pid pr
    (setCell (st.sheet.getD (pr.row_num - 2) []) 9 v) hf
    (by simp [productOfRecord_setCell, hprod])
  unfold get_product_row list_products sheetUpdateCell
  simp only [show (10 : Nat) - 1 = 9 from rfl]
  rw [hset]
  simp [productOfRecord_setCell, hprod]

lemma add_booking_ok (st : St) (pid email : String) (pr : ProductRow)
    (cap : Int) (hrow : get_product_row st pid = .ok pr)
    (hcap : pyInt pr.product.capacity = some cap)
    (hle : ¬ (((parseEmails pr.product.emails).length : Int) > cap - 1)) :
    add_booking st pid email =
      ({ sheet := sheetUpdateCell st.sheet pr.row_num 10
           (pyJoin ',' (parseEmails pr.product.emails ++ [email])),
         calendar := update_event_description st.calendar
           pr.product.calendar_id
           (build_description pr.product.description pr.product.capacity
              (parseEmails pr.product.emails ++ [email]).length ++ "\n" ++
            pyJoin '\n'
              (pySplit
                (pyJoin ',' (parseEmails pr.product.emails ++ [email])) ',')) },
       none) := by
  unfold add_booking
  rw [hrow]
  dsimp only
  rw [hcap]
  dsimp only
  rw [if_neg hle, store_if_eq]

/-! Concrete states used by examples, witnesses and counterexamples. -/

def demoProduct : Product :=
  ⟨"7", "cal7", "Tour", "Desc", "Addr", "2", "9", "2021-06-01", "10:00:00", ""⟩

def demoSt0 : St := ⟨[productRecord demoProduct], []⟩

def demoSt1 : St :=
  ⟨[["7", "cal7", "Tour", "Desc", "Addr", "2", "9", "2021-06-01", "10:00:00",
     "a@x.com"]], []⟩

def demoSt2 : St :=
  ⟨[["7", "cal7", "Tour", "Desc", "Addr", "2", "9", "2021-06-01", "10:00:00",
     "a@x.com,b@x.com"]], []⟩

def atCapSt : St :=
  ⟨[["1", "cal1", "Tour", "Desc", "Addr", "1", "9", "2021-06-01", "10:00:00",
     "a@x.com"]], []⟩

def atCapRow : ProductRow :=
  ⟨2, ⟨"1", "cal1", "Tour", "Desc", "Addr", "1", "9", "2021-06-01", "10:00:00",
       "a@x.com"⟩⟩

/-- C1: for the product row that `get_product_row` resolves for the given
id, when the stored emails field parses (empty string meaning the empty
list) to a list with at least `capacity` entries, `add_booking` raises
CapacityReached, and when the parsed list has fewer than `capacity`
entries it does not raise CapacityReached: the error is
`some capacityReached` exactly when `capacity ≤ length`. -/
theorem add_booking_capacityReached_iff (st : St) (pid email : String)
    (pr : ProductRow) (cap : Int)
    (hrow : get_product_row st pid = .ok pr)
    (hcap : pyInt pr.product.capacity = some cap) :
    (add_booking st pid email).2 = some Err.capacityReached ↔
      cap ≤ ((parseEmails pr.product.emails).length : Int) := by
  unfold add_booking
  rw [hrow]
  dsimp only
  rw [hcap]
  dsimp only
  by_cases hc : ((parseEmails pr.product.emails).length : Int) > cap - 1
  · rw [if_pos hc]
    exact ⟨fun _ => by omega, fun _ => rfl⟩
  · rw [if_neg hc]
    constructor
    · intro hx
      exact absurd hx (by simp)
    · intro hx
      omega

/-- C1 witness: a product with capacity 1 and one stored email is at
capacity, so booking it raises CapacityReached. -/
theorem add_booking_capacityReached_iff_witness :
    (add_booking atCapSt "1" "x@y.z").2 = some Err.capacityReached :=
  (add_booking_capacityReached_iff atCapSt "1" "x@y.z" atCapRow 1
    (by decide) (by decide)).mpr (by decide)

/-- C4: with capacity 2 and an empty emails field, booking a@x.com
succeeds and stores "a@x.com", booking b@x.com then succeeds and stores
"a@x.com,b@x.com", and a third booking raises CapacityReached. -/
theorem add_booking_capacity_two_example :
    add_booking demoSt0 "7" "a@x.com" = (demoSt1, none) ∧
    getCell (demoSt1.sheet.getD 0 []) 9 = "a@x.com" ∧
    add_booking demoSt1 "7" "b@x.com" = (demoSt2, none) ∧
    getCell (demoSt2.sheet.getD 0 []) 9 = "a@x.com,b@x.com" ∧
    add_booking demoSt2 "7" "c@x.com" = (demoSt2, some Err.capacityReached) := by
  decide

lemma parseEmails_append_email (es : List String) (email : String)
    (hes : ∀ x ∈ es, ',' ∉ x.data) (hne : email ≠ "")
    (hcomma : ',' ∉ email.data) :
    parseEmails (pyJoin ',' (es ++ [email])) = es ++ [email] := by
  apply parseEmails_pyJoin
  · simp
  · intro x hx
    rcases List.mem_append.mp hx with hx | hx
    · exact hes x hx
    · rw [List.mem_singleton.mp hx]
      exact hcomma
  · exact pyJoin_append_singleton_ne_empty es email hne

lemma updated_cell_value (sheet : List (List String)) (rowNum : Nat)
    (v : String) (hidx : rowNum - 2 < sheet.length) :
    getCell ((sheetUpdateCell sheet rowNum 10 v).getD (rowNum - 2) []) 9 = v := by
  unfold sheetUpdateCell
  simp only [show (10 : Nat) - 1 = 9 from rfl]
  rw [getD_set_self _ _ _ _ hidx, getCell_setCell_self]

/-- C2 (corrected): for a product strictly below capacity, a call to
`add_booking` with a nonempty comma-free email succeeds, appends exactly
that email to the stored list, increases the stored email count by
exactly one, and keeps the count at most the capacity.  (Without the
nonempty comma-free restriction the claim is false: see the
counterexample, where a comma-carrying email raises the stored count by
two and past the capacity.) -/
theorem add_booking_increments_count (st : St) (pid email : String)
    (pr : ProductRow) (cap : Int)
    (hrow : get_product_row st pid = .ok pr)
    (hcap : pyInt pr.product.capacity = some cap)
    (hlt : ((parseEmails pr.product.emails).length : Int) < cap)
    (hne : email ≠ "") (hcomma : ',' ∉ email.data) :
    ∃ st2 : St, add_booking st pid email = (st2, none) ∧
      parseEmails (getCell (st2.sheet.getD (pr.row_num - 2) []) 9) =
        parseEmails pr.product.emails ++ [email] ∧
      (parseEmails (getCell (st2.sheet.getD (pr.row_num - 2) []) 9)).length =
        (parseEmails pr.product.emails).length + 1 ∧
      ((parseEmails (getCell (st2.sheet.getD (pr.row_num - 2) []) 9)).length : Int)
        ≤ cap := by
  obtain ⟨h2, hidx, hprod, hpid⟩ := get_product_row_ok_spec st pid pr hrow
  have hle : ¬ (((parseEmails pr.product.emails).length : Int) > cap - 1) := by
    omega
  have hok := add_booking_ok st pid email pr cap hrow hcap hle
  refine ⟨_, hok, ?_, ?_, ?_⟩ <;>
    rw [updated_cell_value st.sheet pr.row_num _ hidx,
      parseEmails_append_email _ _ (parseEmails_not_comma _) hne hcomma]
  · simp
  · simp only [List.length_append, List.length_singleton]
    omega

def capOneSt : St :=
  ⟨[["1", "cal1", "Tour", "Desc", "Addr", "1", "9", "2021-06-01", "10:00:00",
     ""]], []⟩

/-- C2 counterexample: the product has capacity 1 and zero stored emails
(strictly below capacity), yet a successful `add_booking` with the single
email string "a@x.com,b@x.com" stores a field that parses to two emails:
the count increases by two, not one, and ends above the capacity. -/
theorem add_booking_comma_email_overbooks :
    parseEmails "" = [] ∧ pyInt "1" = some 1 ∧
    add_booking capOneSt "1" "a@x.com,b@x.com" =
      (⟨[["1", "cal1", "Tour", "Desc", "Addr", "1", "9", "2021-06-01",
          "10:00:00", "a@x.com,b@x.com"]], []⟩, none) ∧
    (parseEmails "a@x.com,b@x.com").length = 2 := by
  decide

def belowCapSt : St :=
  ⟨[["5", "cal5", "Tour", "Desc", "Addr", "2", "9", "2021-06-01", "10:00:00",
     "a@x.com"]], []⟩

def belowCapRow : ProductRow :=
  ⟨2, ⟨"5", "cal5", "Tour", "Desc", "Addr", "2", "9", "2021-06-01", "10:00:00",
       "a@x.com"⟩⟩

/-- C2 witness: booking b@x.com on a capacity-2 product holding one email
succeeds and moves the stored count from one to two. -/
theorem add_booking_increments_count_witness :
    ∃ st2 : St, add_booking belowCapSt "5" "b@x.com" = (st2, none) ∧
      parseEmails (getCell (st2.sheet.getD (belowCapRow.row_num - 2) []) 9) =
        parseEmails belowCapRow.product.emails ++ ["b@x.com"] ∧
      (parseEmails (getCell (st2.sheet.getD (belowCapRow.row_num - 2) []) 9)).length =
        (parseEmails belowCapRow.product.emails).length + 1 ∧
      ((parseEmails
          (getCell (st2.sheet.getD (belowCapRow.row_num - 2) []) 9)).length : Int)
        ≤ 2 :=
  add_booking_increments_count belowCapSt "5" "b@x.com" belowCapRow 2
    (by decide) (by decide) (by decide) (by decide) (by decide)

/-- C6 (corrected): the capacity check of `add_booking` compares only the
count of stored emails, never email identity, so double-booking the same
email is possible; but for the second call to succeed as well, the
product must start at least two below its capacity (with exactly one free
place, the second call raises CapacityReached — see the counterexample).
For a product with stored count at most capacity minus two and a nonempty
comma-free email, both calls succeed and the stored list gains two copies
of the email. -/
theorem add_booking_twice_same_email (st : St) (pid email : String)
    (pr : ProductRow) (cap : Int)
    (hrow : get_product_row st pid = .ok pr)
    (hcap : pyInt pr.product.capacity = some cap)
    (hcap2 : ((parseEmails pr.product.emails).length : Int) + 2 ≤ cap)
    (hne : email ≠ "") (hcomma : ',' ∉ email.data) :
    ∃ st1 st2 : St,
      add_booking st pid email = (st1, none) ∧
      add_booking st1 pid email = (st2, none) ∧
      parseEmails (getCell (st2.sheet.getD (pr.row_num - 2) []) 9) =
        parseEmails pr.product.emails ++ [email, email] := by
  obtain ⟨h2, hidx, hprod, hpid⟩ := get_product_row_ok_spec st pid pr hrow
  have hle1 : ¬ (((parseEmails pr.product.emails).length : Int) > cap - 1) := by
    omega
  have hok1 := add_booking_ok st pid email pr cap hrow hcap hle1
  have hparse1 :
      parseEmails (pyJoin ',' (parseEmails pr.product.emails ++ [email])) =
        parseEmails pr.product.emails ++ [email] :=
    parseEmails_append_email _ _ (parseEmails_not_comma _) hne hcomma
  have hrow1 := get_product_row_update st
    (update_event_description st.calendar pr.product.calendar_id
      (build_description pr.product.description pr.product.capacity
        (parseEmails pr.product.emails ++ [email]).length ++ "\n" ++
        pyJoin '\n'
          (pySplit (pyJoin ',' (parseEmails pr.product.emails ++ [email])) ',')))
    pid (pyJoin ',' (parseEmails pr.product.emails ++ [email])) pr hrow
  have hle2 : ¬ (((parseEmails
      (pyJoin ',' (parseEmails pr.product.emails ++ [email]))).length : Int) >
        cap - 1) := by
    rw [hparse1]
    simp only [List.length_append, List.length_singleton]
    push_cast
    omega
  have hok2 := add_booking_ok _ pid email _ cap hrow1 hcap hle2
  have hidx1 : pr.row_num - 2 < (sheetUpdateCell st.sheet pr.row_num 10
      (pyJoin ',' (parseEmails pr.product.emails ++ [email]))).length := by
    unfold sheetUpdateCell
    rw [List.length_set]
    exact hidx
  have hes2 : ∀ x ∈ parseEmails pr.product.emails ++ [email], ',' ∉ x.data := by
    intro x hx
    rcases List.mem_append.mp hx with hx | hx
    · exact parseEmails_not_comma _ x hx
    · rw [List.mem_singleton.mp hx]
      exact hcomma
  refine ⟨_, _, hok1, hok2, ?_⟩
  dsimp only
  rw [updated_cell_value _ pr.row_num _ hidx1, hparse1,
    parseEmails_append_email _ _ hes2 hne hcomma]
  simp [List.append_assoc]

def capThreeSt : St :=
  ⟨[["9", "cal9", "Tour", "Desc", "Addr", "3", "9", "2021-06-01", "10:00:00",
     ""]], []⟩

def capThreeRow : ProductRow :=
  ⟨2, ⟨"9", "cal9", "Tour", "Desc", "Addr", "3", "9", "2021-06-01", "10:00:00",
       ""⟩⟩

/-- C6 witness: on a capacity-3 product with no stored emails, two
bookings of the same address both succeed and store it twice. -/
theorem add_booking_twice_same_email_witness :
    ∃ st1 st2 : St,
      add_booking capThreeSt "9" "a@x.com" = (st1, none) ∧
      add_booking st1 "9" "a@x.com" = (st2, none) ∧
      parseEmails (getCell (st2.sheet.getD (capThreeRow.row_num - 2) []) 9) =
        parseEmails capThreeRow.product.emails ++ ["a@x.com", "a@x.com"] :=
  add_booking_twice_same_email capThreeSt "9" "a@x.com" capThreeRow 3
    (by decide) (by decide) (by decide) (by decide) (by decide)

/-- C6 counterexample: a capacity-1 product with no stored emails is
below capacity, and the first booking succeeds, but the second booking of
the very same email raises CapacityReached instead of succeeding — so
"calling add_booking twice succeeds both times" fails for every product
with exactly one free place. -/
theorem add_booking_twice_capacity_one :
    parseEmails "" = [] ∧ pyInt "1" = some 1 ∧
    add_booking capOneSt "1" "a@x.com" =
      (⟨[["1", "cal1", "Tour", "Desc", "Addr", "1", "9", "2021-06-01",
          "10:00:00", "a@x.com"]], []⟩, none) ∧
    (add_booking ⟨[["1", "cal1", "Tour", "Desc", "Addr", "1", "9",
        "2021-06-01", "10:00:00", "a@x.com"]], []⟩ "1" "a@x.com").2 =
      some Err.capacityReached := by
  decide

/-- C3: `get_product_row` is a linear scan over `list_products()`: when no
listed product carries the requested id it raises ProductNotFound, and
when some listed product carries the id it returns a listed product row
whose product has exactly that id. -/
theorem get_product_row_linear_scan (st : St) (pid : String) :
    ((∀ r ∈ list_products st, r.product.id ≠ pid) →
      get_product_row st pid = .error Err.productNotFound) ∧
    ((∃ r ∈ list_products st, r.product.id = pid) →
      ∃ pr ∈ list_products st, pr.product.id = pid ∧
        get_product_row st pid = .ok pr) := by
  constructor
  · intro hall
    have hnone : (list_products st).find? (fun q => q.product.id == pid) = none :=
      List.find?_eq_none.mpr (by intro x hx; simp [hall x hx])
    unfold get_product_row
    rw [hnone]
  · rintro ⟨r, hr, hid⟩
    have hsome : ((list_products st).find? (fun q => q.product.id == pid)).isSome :=
      List.find?_isSome.mpr ⟨r, hr, by simp [hid]⟩
    obtain ⟨pr, hpr⟩ := Option.isSome_iff_exists.mp hsome
    refine ⟨pr, List.mem_of_find?_eq_some hpr, ?_, ?_⟩
    · have := List.find?_some hpr
      simpa using this
    · unfold get_product_row
      rw [hpr]

/-- C3 witness: looking up an id absent from the single-row table raises
ProductNotFound. -/
theorem get_product_row_linear_scan_witness :
    get_product_row demoSt0 "missing" = .error Err.productNotFound :=
  (get_product_row_linear_scan demoSt0 "missing").1 (by decide)

/-- C5: `add_product_raw` builds its new `Product` but then calls
`add_product(sample_product)` on the undefined name `sample_product`, so
every call raises NameError before `add_product` runs: the sheet gains no
row and the calendar gains no event, for all inputs. -/
theorem add_product_raw_name_error (st : St) (calendar_id title description
    address price capacity date time : String) :
    (add_product_raw st calendar_id title description address price capacity
        date time).1.sheet = st.sheet ∧
    (add_product_raw st calendar_id title description address price capacity
        date time).1.calendar = st.calendar ∧
    (add_product_raw st calendar_id title description address price capacity
        date time).2 = some Err.nameError :=
  ⟨rfl, rfl, rfl⟩

/-- C7 (corrected): for a product whose time parses as `%H:%M:%S`,
`add_product` builds the event start dateTime as
`<date>T<time><fixed-offset>` and the end dateTime as
`<date>T<time2><fixed-offset>` where `time2` is the start time of day
plus 45 minutes modulo 24 hours (seconds unchanged), with the same date
component — so for start times of 23:15:00 and later the end does not
denote the start instant plus 45 minutes (see the counterexample). -/
theorem add_product_event_dateTimes (st : St) (p : Product) (h m s : Nat)
    (ht : strptimeHMS p.time = some (h, m, s)) :
    ∃ e : GEvent,
      add_product st p =
        ({ sheet := st.sheet ++ [productRecord p],
           calendar := st.calendar ++ [e] }, none) ∧
      e.startDateTime = p.date ++ "T" ++ p.time ++ GMT_OFF ∧
      ∃ h2 m2 : Nat,
        e.endDateTime = p.date ++ "T" ++ strftimeHMS h2 m2 s ++ GMT_OFF ∧
        h2 * 60 + m2 = (h * 60 + m + 45) % 1440 := by
  unfold add_product
  rw [ht]
  dsimp only
  exact ⟨_, rfl, rfl, (h * 60 + m + 45) % 1440 / 60,
    (h * 60 + m + 45) % 1440 % 60, rfl, by omega⟩

/-- C7 witness: the demo product at 10:00:00 produces a start of
2021-06-01T10:00:00+01:00 and an end 45 minutes later the same day. -/
theorem add_product_event_dateTimes_witness :
    ∃ e : GEvent,
      add_product demoSt0 demoProduct =
        ({ sheet := demoSt0.sheet ++ [productRecord demoProduct],
           calendar := demoSt0.calendar ++ [e] }, none) ∧
      e.startDateTime = demoProduct.date ++ "T" ++ demoProduct.time ++ GMT_OFF ∧
      ∃ h2 m2 : Nat,
        e.endDateTime = demoProduct.date ++ "T" ++ strftimeHMS h2 m2 0 ++ GMT_OFF ∧
        h2 * 60 + m2 = (10 * 60 + 0 + 45) % 1440 :=
  add_product_event_dateTimes demoSt0 demoProduct 10 0 0 (by decide)

def lateProduct : Product :=
  ⟨"8", "cal8", "Tour", "Desc", "Addr", "2", "9", "2021-01-01", "23:30:00", ""⟩

/-- C7 counterexample: for the well-formed start time 23:30:00 the built
end dateTime keeps the start date and reads 00:15:00 — both dateTime
strings carry the same date and the same fixed offset, and the minutes of
day of the end (15) differ from the start minutes of day plus 45 (1455),
so the end dateTime is not the start plus a 45-minute duration: it
denotes an instant 23 hours 15 minutes before the start. -/
theorem add_product_end_time_rollover :
    ((add_product ⟨[], []⟩ lateProduct).1.calendar.getD 0
        ⟨"", "", "", "", "", "", ""⟩).startDateTime =
      "2021-01-01T23:30:00+01:00" ∧
    ((add_product ⟨[], []⟩ lateProduct).1.calendar.getD 0
        ⟨"", "", "", "", "", "", ""⟩).endDateTime =
      "2021-01-01T00:15:00+01:00" ∧
    strptimeHMS "23:30:00" = some (23, 30, 0) ∧
    strptimeHMS "00:15:00" = some (0, 15, 0) ∧
    0 * 60 + 15 ≠ 23 * 60 + 30 + 45 := by
  decide

lemma add_product_fst_sheet (st : St) (p : Product) :
    (add_product st p).1.sheet = st.sheet ++ [productRecord p] := by
  unfold add_product
  cases ht : strptimeHMS p.time with
  | none => rfl
  | some t =>
    obtain ⟨hh, mm, ss⟩ := t
    rfl

/-- C8: after `add_product`, `list_products` is the old listing plus one
row holding exactly the added product, appended after all existing rows,
with row number equal to its 0-based data index plus 2 (this holds even
when the time is malformed, because the row append precedes the
`strptime` call). -/
theorem add_product_then_list_products (st : St) (p : Product) :
    list_products (add_product st p).1 =
      list_products st ++ [⟨st.sheet.length + 2, p⟩] := by
  unfold list_products
  rw [add_product_fst_sheet, list_products_aux_append]
  simp [list_products_aux, productOfRecord_productRecord, Nat.add_comm]

/-- C9: `generate_new_product_id` returns the number of data rows of the
products table (the length of `list_products`) formatted as a decimal
string. -/
theorem generate_new_product_id_row_count (st : St) :
    generate_new_product_id st = toString (list_products st).length ∧
    (list_products st).length = st.sheet.length := by
  unfold generate_new_product_id list_products
  rw [list_products_aux_length]
  exact ⟨rfl, rfl⟩

/-- C10: when `add_booking` raises ProductNotFound or CapacityReached,
the whole state — spreadsheet and calendar — is unchanged, because both
raises happen before any write. -/
theorem add_booking_error_no_write (st : St) (pid email : String)
    (h : (add_booking st pid email).2 = some Err.productNotFound ∨
         (add_booking st pid email).2 = some Err.capacityReached) :
    (add_booking st pid email).1 = st := by
  unfold add_booking at h ⊢
  cases hrow : get_product_row st pid with
  | error e => rfl
  | ok pr =>
    rw [hrow] at h
    dsimp only at h ⊢
    cases hcap : pyInt pr.product.capacity with
    | none => rfl
    | some cap =>
      rw [hcap] at h
      dsimp only at h ⊢
      by_cases hc : ((parseEmails pr.product.emails).length : Int) > cap - 1
      · rw [if_pos hc]
      · rw [if_neg hc] at h
        rcases h with h | h <;> exact absurd h (by simp)

/-- C10 witness: booking against an empty table raises ProductNotFound
and leaves the empty state untouched. -/
theorem add_booking_error_no_write_witness :
    (add_booking ⟨[], []⟩ "0" "a@x.com").1 = (⟨[], []⟩ : St) :=
  add_booking_error_no_write ⟨[], []⟩ "0" "a@x.com" (Or.inl (by decide))

end Bookido
